import Mathlib

/-!
Verification development for the slice-extraction module in
src/functions.py (3D/4D brain-volume visualization helpers).

The volume data model follows the source's indexing contract
[Medio-lateral, Antero-posterior, Cranio-caudal, Time]: a 3D volume is a
nested list v with v[ml][ap][cc], a 4D volume additionally has a trailing
time axis.  Numpy basic indexing `a[i]` is embedded by npGet: a negative
index within [-len, 0) wraps, anything else out of [-len, len) raises
IndexError, modelled as Option.none and propagated as PyFault.indexError.
Python's if/elif chain in `_get_slice` has no else branch: an unmatched
orientation leaves Slice/x_lab/y_lab unassigned and the final
`return Slice, x_lab, y_lab` raises UnboundLocalError, modelled as
PyFault.unboundLocalError.
-/

/-- A 2D slice: row index is the first retained axis, column the second. -/
abbrev Slice2 : Type := List (List Int)

/-- A 3D volume, axes [Medio-lateral, Antero-posterior, Cranio-caudal]. -/
abbrev Volume3 : Type := List (List (List Int))

/-- A 4D volume, axes [Medio-lateral, Antero-posterior, Cranio-caudal, Time]. -/
abbrev Volume4 : Type := List (List (List (List Int)))

/-- Faults the Python reference code can raise while extracting a slice:
a numpy IndexError from out-of-range basic indexing, or the
UnboundLocalError raised by `_get_slice`'s return statement when no
orientation branch assigned the local variables. -/
inductive PyFault where
  | indexError
  | unboundLocalError
  deriving DecidableEq, Repr

/-- Resolve a Python/numpy index against an axis of length `len`:
a negative index within range wraps by adding `len`; an index outside
[-len, len) is invalid (numpy raises IndexError). -/
def npIdx (len : Nat) (i : Int) : Option Nat :=
  if 0 ≤ i then
    if i < (len : Int) then some i.toNat else none
  else
    if 0 ≤ i + (len : Int) then some (i + (len : Int)).toNat else none

/-- Numpy basic indexing `xs[i]` on one axis. -/
def npGet (xs : List α) (i : Int) : Option α :=
  (npIdx xs.length i).bind xs.get?

/-- Apply a fallible function to every element, failing if any application
fails; this embeds numpy indexing along a non-leading axis, where the
index is applied inside every sub-array. -/
def mapOpt (f : α → Option β) : List α → Option (List β)
  | [] => some []
  | x :: xs => do
      let y ← f x
      let ys ← mapOpt f xs
      pure (y :: ys)

/-- Embedding of `_get_slice(image, orientation, slice_nr)`
(src/functions.py lines 105-133).  The three branches embed
`image[slice_nr,:,:]`, `image[:,slice_nr,:]` and `image[:,:,slice_nr]`
with the label assignments of each branch; the missing else branch is the
UnboundLocalError fault described in the module docstring. -/
def get_slice (image : Volume3) (orientation : String) (slice_nr : Int) :
    Except PyFault (Slice2 × String × String) :=
  if orientation = "sagittal" then
    match npGet image slice_nr with
    | some s => Except.ok (s, "Antero-posterior", "Cranio-caudal")
    | none => Except.error PyFault.indexError
  else if orientation = "frontal" then
    match mapOpt (fun plane => npGet plane slice_nr) image with
    | some s => Except.ok (s, "Medio-lateral", "Cranio-caudal")
    | none => Except.error PyFault.indexError
  else if orientation = "axial" then
    match mapOpt (fun plane => mapOpt (fun row => npGet row slice_nr) plane) image with
    | some s => Except.ok (s, "Medio-lateral", "Antero-posterior")
    | none => Except.error PyFault.indexError
  else
    Except.error PyFault.unboundLocalError

/-- Embedding of `image[:,:,:,timepoint]` (src/functions.py lines 37 and 82):
the 3D sub-volume of a 4D volume at one timepoint. -/
def fixTime (image : Volume4) (timepoint : Int) : Option Volume3 :=
  mapOpt (fun plane =>
    mapOpt (fun row =>
      mapOpt (fun series => npGet series timepoint) row) plane) image

/-- Embedding of the slice computed by `show_functional_slice`
(src/functions.py lines 24-45): select the 3D sub-volume at the given
timepoint, then delegate to `_get_slice`. -/
def show_functional_slice (image : Volume4) (orientation : String)
    (slice_nr timepoint : Int) : Except PyFault (Slice2 × String × String) :=
  match fixTime image timepoint with
  | some image_3D => get_slice image_3D orientation slice_nr
  | none => Except.error PyFault.indexError

/-- Embedding of `image[ML_position, AP_position, CC_position, :]`
(src/functions.py line 62): the voxel's value over time. -/
def voxel_over_time (image : Volume4) (ML_position AP_position CC_position : Int) :
    Option (List Int) := do
  let plane ← npGet image ML_position
  let row ← npGet plane AP_position
  let series ← npGet row CC_position
  pure series

/-- Embedding of the per-orientation slice extraction in `track_voxel`'s
loop (src/functions.py lines 77-83): the orientations are zipped with the
slice numbers [ML_position, AP_position, CC_position], and each panel
extracts from `image[:,:,:,slice_timepoint]`. -/
def track_voxel_slices (image : Volume4)
    (ML_position AP_position CC_position slice_timepoint : Int) :
    List (String × Except PyFault (Slice2 × String × String)) :=
  (List.zip ["sagittal", "frontal", "axial"]
            [ML_position, AP_position, CC_position]).map
    (fun p =>
      (p.1,
       match fixTime image slice_timepoint with
       | some image_3D => get_slice image_3D p.1 p.2
       | none => Except.error PyFault.indexError))

/-- Python `list.remove(x)`: delete the first element equal to `x`
(total here; in every use below the value is present in the list). -/
def listRemove (xs : List Int) (x : Int) : List Int :=
  match xs with
  | [] => []
  | y :: ys => if y = x then ys else y :: listRemove ys x

/-- Embedding of src/functions.py lines 93-94:
`x_y_voxel = [ML_position, AP_position, CC_position]` followed by
`x_y_voxel.remove(slice_nr)`. -/
def x_y_voxel (ML_position AP_position CC_position slice_nr : Int) : List Int :=
  listRemove [ML_position, AP_position, CC_position] slice_nr

/-- Embedding of src/functions.py line 95: the marker is drawn at
`(x_y_voxel[0], x_y_voxel[1])`. -/
def trackMarker (ML_position AP_position CC_position slice_nr : Int) : Int × Int :=
  ((x_y_voxel ML_position AP_position CC_position slice_nr).getD 0 0,
   (x_y_voxel ML_position AP_position CC_position slice_nr).getD 1 0)

/-- A 3D volume is rectangular with shape (d0, d1, d2). -/
abbrev hasShape3 (v : Volume3) (d0 d1 d2 : Nat) : Prop :=
  v.length = d0 ∧ ∀ p ∈ v, p.length = d1 ∧ ∀ r ∈ p, r.length = d2

/-- A 2D slice is rectangular with shape (a, b). -/
abbrev hasShape2 (s : Slice2) (a b : Nat) : Prop :=
  s.length = a ∧ ∀ r ∈ s, r.length = b

/-- A 4D volume is rectangular with shape (d0, d1, d2, d3). -/
abbrev hasShape4 (v : Volume4) (d0 d1 d2 d3 : Nat) : Prop :=
  v.length = d0 ∧ ∀ p ∈ v,
    p.length = d1 ∧ ∀ r ∈ p,
      r.length = d2 ∧ ∀ s ∈ r, s.length = d3

/-- Entry (m, a, c) of a 3D volume, with defaults for out-of-range access. -/
def at3 (v : Volume3) (m a c : Nat) : Int :=
  ((v.getD m []).getD a []).getD c 0

/-- Entry (x, y) of a 2D slice, with defaults for out-of-range access. -/
def at2 (s : Slice2) (x y : Nat) : Int :=
  (s.getD x []).getD y 0

/-- Entry (m, a, c, t) of a 4D volume, with defaults for out-of-range access. -/
def at4 (v : Volume4) (m a c t : Nat) : Int :=
  (((v.getD m []).getD a []).getD c []).getD t 0

/-! Basic list-access lemmas, proved from first principles so that they
match the access functions used in the embedding. -/

theorem get?_some_of_lt (xs : List α) : ∀ i : Nat, i < xs.length → ∃ x, xs.get? i = some x := by
  induction xs with
  | nil => intro i h; simp at h
  | cons x xs ih =>
    intro i h
    cases i with
    | zero => exact ⟨x, rfl⟩
    | succ j => exact ih j (Nat.lt_of_succ_lt_succ h)

theorem mem_of_get?_some (xs : List α) : ∀ (i : Nat) (x : α), xs.get? i = some x → x ∈ xs := by
  induction xs with
  | nil => intro i x h; simp [List.get?] at h
  | cons y ys ih =>
    intro i x h
    cases i with
    | zero =>
      simp only [List.get?, Option.some.injEq] at h
      exact h ▸ List.mem_cons_self y ys
    | succ j => exact List.mem_cons_of_mem y (ih j x h)

theorem getD_of_get?_some (xs : List α) (i : Nat) (x d : α) (h : xs.get? i = some x) :
    xs.getD i d = x := by
  rw [List.getD_eq_getD_get?, h]
  rfl

/-! Lemmas about the numpy-style single-axis access npGet. -/

theorem npGet_coe_nat (xs : List α) (i : Nat) (h : i < xs.length) :
    npGet xs (i : Int) = xs.get? i := by
  unfold npGet npIdx
  rw [if_pos (Int.ofNat_nonneg i), if_pos (by exact_mod_cast h)]
  simp

theorem npGet_some_of_lt (xs : List α) (i : Nat) (h : i < xs.length) :
    ∃ x, npGet xs (i : Int) = some x := by
  obtain ⟨x, hx⟩ := get?_some_of_lt xs i h
  exact ⟨x, by rw [npGet_coe_nat xs i h, hx]⟩

theorem npGet_none_of_out_of_range (xs : List α) (i : Int)
    (h : (xs.length : Int) ≤ i ∨ i < -(xs.length : Int)) : npGet xs i = none := by
  unfold npGet npIdx
  split_ifs with h1 h2 h3 <;> first | rfl | (exfalso; omega)

theorem mem_of_npGet_some (xs : List α) (i : Int) (x : α) (h : npGet xs i = some x) :
    x ∈ xs := by
  unfold npGet at h
  cases hk : npIdx xs.length i with
  | none => rw [hk] at h; cases h
  | some k => rw [hk] at h; exact mem_of_get?_some xs k x h

/-! Lemmas about mapOpt . -/

theorem mapOpt_cons_eq (f : α → Option β) (x : α) (xs : List α) :
    mapOpt f (x :: xs) =
      (f x).bind (fun y => (mapOpt f xs).bind (fun ys => some (y :: ys))) := rfl

theorem mapOpt_cons_some (f : α → Option β) (x : α) (xs : List α) (ys : List β)
    (h : mapOpt f (x :: xs) = some ys) :
    ∃ y tl, f x = some y ∧ mapOpt f xs = some tl ∧ ys = y :: tl := by
  rw [mapOpt_cons_eq] at h
  cases hf : f x with
  | none => rw [hf] at h; simp at h
  | some y =>
    rw [hf] at h
    cases hm : mapOpt f xs with
    | none => rw [hm] at h; simp at h
    | some tl =>
      rw [hm] at h
      simp only [Option.some_bind, Option.some.injEq] at h
      exact ⟨y, tl, rfl, rfl, h.symm⟩

theorem mapOpt_length (f : α → Option β) :
    ∀ (xs : List α) (ys : List β), mapOpt f xs = some ys → ys.length = xs.length := by
  intro xs
  induction xs with
  | nil =>
    intro ys h
    simp only [mapOpt, Option.some.injEq] at h
    rw [← h]
    rfl
  | cons x xs ih =>
    intro ys h
    obtain ⟨y, tl, hf, hm, rfl⟩ := mapOpt_cons_some f x xs ys h
    simp [ih tl hm]

theorem mapOpt_get? (f : α → Option β) :
    ∀ (xs : List α) (ys : List β), mapOpt f xs = some ys →
      ∀ (k : Nat) (x : α), xs.get? k = some x → ∃ y, f x = some y ∧ ys.get? k = some y := by
  intro xs
  induction xs with
  | nil => intro ys h k x hx; simp [List.get?] at hx
  | cons a as ih =>
    intro ys h k x hx
    obtain ⟨y, tl, hf, hm, rfl⟩ := mapOpt_cons_some f a as ys h
    cases k with
    | zero =>
      simp only [List.get?, Option.some.injEq] at hx
      exact ⟨y, hx ▸ hf, rfl⟩
    | succ j => exact ih tl hm j x hx

theorem mapOpt_mem (f : α → Option β) :
    ∀ (xs : List α) (ys : List β), mapOpt f xs = some ys →
      ∀ y ∈ ys, ∃ x ∈ xs, f x = some y := by
  intro xs
  induction xs with
  | nil =>
    intro ys h y hy
    simp only [mapOpt, Option.some.injEq] at h
    rw [← h] at hy
    simp at hy
  | cons a as ih =>
    intro ys h y hy
    obtain ⟨y0, tl, hf, hm, rfl⟩ := mapOpt_cons_some f a as ys h
    rcases List.mem_cons.mp hy with h1 | h1
    · exact ⟨a, List.mem_cons_self a as, h1 ▸ hf⟩
    · obtain ⟨x, hx, hfx⟩ := ih tl hm y h1
      exact ⟨x, List.mem_cons_of_mem a hx, hfx⟩

theorem mapOpt_some_of_forall (f : α → Option β) :
    ∀ xs : List α, (∀ x ∈ xs, ∃ y, f x = some y) → ∃ ys, mapOpt f xs = some ys := by
  intro xs
  induction xs with
  | nil => intro _; exact ⟨[], rfl⟩
  | cons a as ih =>
    intro h
    obtain ⟨y, hy⟩ := h a (List.mem_cons_self a as)
    obtain ⟨ys, hys⟩ := ih (fun x hx => h x (List.mem_cons_of_mem a hx))
    refine ⟨y :: ys, ?_⟩
    rw [mapOpt_cons_eq, hy, hys]
    rfl

theorem mapOpt_none_of_mem (f : α → Option β) :
    ∀ (xs : List α) (x : α), x ∈ xs → f x = none → mapOpt f xs = none := by
  intro xs
  induction xs with
  | nil => intro x hx _; simp at hx
  | cons a as ih =>
    intro x hx hf
    rcases List.mem_cons.mp hx with h1 | h1
    · have hfa : f a = none := h1 ▸ hf
      rw [mapOpt_cons_eq, hfa]
      rfl
    · cases hfa : f a with
      | none => rw [mapOpt_cons_eq, hfa]; rfl
      | some y => simp [mapOpt_cons_eq, hfa, ih x h1 hf]

/-- C3: For every volume and slice index, whenever the Slice Extractor
returns a result, the (x-label, y-label) pair is exactly: sagittal ->
(Antero-posterior, Cranio-caudal), frontal -> (Medio-lateral, Cranio-caudal),
axial -> (Medio-lateral, Antero-posterior). -/
theorem get_slice_labels (v : Volume3) (i : Int) :
    (∀ s xl yl, get_slice v "sagittal" i = Except.ok (s, xl, yl) →
        xl = "Antero-posterior" ∧ yl = "Cranio-caudal") ∧
    (∀ s xl yl, get_slice v "frontal" i = Except.ok (s, xl, yl) →
        xl = "Medio-lateral" ∧ yl = "Cranio-caudal") ∧
    (∀ s xl yl, get_slice v "axial" i = Except.ok (s, xl, yl) →
        xl = "Medio-lateral" ∧ yl = "Antero-posterior") := by
  refine ⟨?_, ?_, ?_⟩ <;> intro s xl yl h
  · unfold get_slice at h
    rw [if_pos rfl] at h
    cases hn : npGet v i with
    | none => rw [hn] at h; cases h
    | some s0 =>
      rw [hn] at h
      simp only [Except.ok.injEq, Prod.mk.injEq] at h
      exact ⟨h.2.1.symm, h.2.2.symm⟩
  · unfold get_slice at h
    rw [if_neg (by decide), if_pos rfl] at h
    cases hn : mapOpt (fun plane => npGet plane i) v with
    | none => rw [hn] at h; cases h
    | some s0 =>
      rw [hn] at h
      simp only [Except.ok.injEq, Prod.mk.injEq] at h
      exact ⟨h.2.1.symm, h.2.2.symm⟩
  · unfold get_slice at h
    rw [if_neg (by decide), if_neg (by decide), if_pos rfl] at h
    cases hn : mapOpt (fun plane => mapOpt (fun row => npGet row i) plane) v with
    | none => rw [hn] at h; cases h
    | some s0 =>
      rw [hn] at h
      simp only [Except.ok.injEq, Prod.mk.injEq] at h
      exact ⟨h.2.1.symm, h.2.2.symm⟩

/-- Witness for get_slice_labels at a concrete volume and index. -/
theorem get_slice_labels_witness :
    get_slice [[[7]]] "sagittal" 0 =
      Except.ok ([[7]], "Antero-posterior", "Cranio-caudal") ∧
    ("Antero-posterior" = "Antero-posterior" ∧ "Cranio-caudal" = "Cranio-caudal") :=
  ⟨rfl, (get_slice_labels [[[7]]] 0).1 [[7]] "Antero-posterior" "Cranio-caudal" rfl⟩

/-- C4: The overlay marker of `track_voxel` does NOT always drop the
coordinate of the orientation's fixed axis.  Lines 93-95 remove the first
list element whose VALUE equals slice_nr, so for the axial panel at voxel
position (ML, AP, CC) = (5, 7, 5) (slice_nr = CC = 5) the ML coordinate is
removed instead of CC: the marker is drawn at (7, 5), while dropping the
fixed CC coordinate, as the code's axis labels for the axial panel
(x = Medio-lateral, y = Antero-posterior) require, would give (5, 7). -/
theorem track_voxel_marker_remove_bug :
    trackMarker 5 7 5 5 = (7, 5) ∧ trackMarker 5 7 5 5 ≠ (5, 7) := by decide

/-- C7 counterexample: on an unrecognized orientation tag the reference
`_get_slice` does not silently return a value; it fails, raising
UnboundLocalError at the return statement. -/
theorem get_slice_coronal_faults_cex :
    get_slice [[[0]]] "coronal" 0 = Except.error PyFault.unboundLocalError ∧
    ∀ r : Slice2 × String × String, get_slice [[[0]]] "coronal" 0 ≠ Except.ok r := by
  refine ⟨rfl, ?_⟩
  intro r h
  exact Except.noConfusion h

/-- C7 (amended): for every orientation tag outside
{sagittal, frontal, axial}, `_get_slice` assigns none of its local
variables and its return statement raises UnboundLocalError: the call
fails and no slice or labels are produced. -/
theorem get_slice_unknown_orientation_faults (v : Volume3) (i : Int) (orientation : String)
    (h1 : orientation ≠ "sagittal") (h2 : orientation ≠ "frontal")
    (h3 : orientation ≠ "axial") :
    get_slice v orientation i = Except.error PyFault.unboundLocalError := by
  unfold get_slice
  rw [if_neg h1, if_neg h2, if_neg h3]

/-- Witness for get_slice_unknown_orientation_faults at the tag
"coronal" from the spec's example. -/
theorem get_slice_unknown_orientation_faults_witness :
    ("coronal" ≠ "sagittal" ∧ "coronal" ≠ "frontal" ∧ "coronal" ≠ "axial") ∧
    get_slice [[[1]]] "coronal" 2 = Except.error PyFault.unboundLocalError :=
  ⟨⟨by decide, by decide, by decide⟩,
   get_slice_unknown_orientation_faults [[[1]]] 2 "coronal"
     (by decide) (by decide) (by decide)⟩

/-- C9: In `track_voxel`, the slice index used for each orientation panel
is exactly that orientation's fixed coordinate of the voxel position
(sagittal uses ML, frontal uses AP, axial uses CC), each extracted from
the 3D sub-volume at the fixed display timepoint. -/
theorem track_voxel_slice_indices (image : Volume4)
    (ML_position AP_position CC_position slice_timepoint : Int) (v3 : Volume3)
    (h : fixTime image slice_timepoint = some v3) :
    track_voxel_slices image ML_position AP_position CC_position slice_timepoint =
      [("sagittal", get_slice v3 "sagittal" ML_position),
       ("frontal", get_slice v3 "frontal" AP_position),
       ("axial", get_slice v3 "axial" CC_position)] := by
  simp [track_voxel_slices, h]

/-- Witness for track_voxel_slice_indices at a concrete 1x1x1x1 volume. -/
theorem track_voxel_slice_indices_witness :
    fixTime [[[[42]]]] 0 = some [[[42]]] ∧
    track_voxel_slices [[[[42]]]] 0 0 0 0 =
      [("sagittal", get_slice [[[42]]] "sagittal" 0),
       ("frontal", get_slice [[[42]]] "frontal" 0),
       ("axial", get_slice [[[42]]] "axial" 0)] :=
  ⟨rfl, track_voxel_slice_indices [[[[42]]]] 0 0 0 0 [[[42]]] rfl⟩

/-- C1: For every rectangular 3D volume of shape (d0, d1, d2) and every
valid slice index, the Slice Extractor returns a 2D array whose shape is
the volume's shape with the orientation's fixed axis removed - sagittal
(d1, d2), frontal (d0, d2), axial (d0, d1) - together with the documented
x-label/y-label pair. -/
theorem get_slice_shape (v : Volume3) (d0 d1 d2 : Nat) (hs : hasShape3 v d0 d1 d2) :
    (∀ i : Nat, i < d0 → ∃ s, get_slice v "sagittal" (i : Int) =
        Except.ok (s, "Antero-posterior", "Cranio-caudal") ∧ hasShape2 s d1 d2) ∧
    (∀ i : Nat, i < d1 → ∃ s, get_slice v "frontal" (i : Int) =
        Except.ok (s, "Medio-lateral", "Cranio-caudal") ∧ hasShape2 s d0 d2) ∧
    (∀ i : Nat, i < d2 → ∃ s, get_slice v "axial" (i : Int) =
        Except.ok (s, "Medio-lateral", "Antero-posterior") ∧ hasShape2 s d0 d1) := by
  obtain ⟨hlen, hplanes⟩ := hs
  refine ⟨?_, ?_, ?_⟩
  · intro i hi
    obtain ⟨s, hsome⟩ := get?_some_of_lt v i (by rw [hlen]; exact hi)
    have e : npGet v (i : Int) = some s := by
      rw [npGet_coe_nat v i (by rw [hlen]; exact hi)]
      exact hsome
    refine ⟨s, ?_, ?_⟩
    · unfold get_slice
      rw [if_pos rfl, e]
    · exact hplanes s (mem_of_get?_some v i s hsome)
  · intro i hi
    have hall : ∀ p ∈ v, ∃ y, npGet p (i : Int) = some y := by
      intro p hp
      exact npGet_some_of_lt p i (by rw [(hplanes p hp).1]; exact hi)
    obtain ⟨s, hmap⟩ := mapOpt_some_of_forall (fun p => npGet p (i : Int)) v hall
    refine ⟨s, ?_, ?_, ?_⟩
    · unfold get_slice
      rw [if_neg (by decide), if_pos rfl, hmap]
    · rw [mapOpt_length (fun p => npGet p (i : Int)) v s hmap, hlen]
    · intro r hr
      obtain ⟨p, hp, hpr⟩ := mapOpt_mem (fun p => npGet p (i : Int)) v s hmap r hr
      exact (hplanes p hp).2 r (mem_of_npGet_some p (i : Int) r hpr)
  · intro i hi
    have hall : ∀ p ∈ v, ∃ y, mapOpt (fun row => npGet row (i : Int)) p = some y := by
      intro p hp
      apply mapOpt_some_of_forall
      intro r hr
      exact npGet_some_of_lt r i (by rw [(hplanes p hp).2 r hr]; exact hi)
    obtain ⟨s, hmap⟩ := mapOpt_some_of_forall
      (fun p => mapOpt (fun row => npGet row (i : Int)) p) v hall
    refine ⟨s, ?_, ?_, ?_⟩
    · unfold get_slice
      rw [if_neg (by decide), if_neg (by decide), if_pos rfl, hmap]
    · rw [mapOpt_length (fun p => mapOpt (fun row => npGet row (i : Int)) p) v s hmap, hlen]
    · intro r hr
      obtain ⟨p, hp, hpr⟩ := mapOpt_mem
        (fun p => mapOpt (fun row => npGet row (i : Int)) p) v s hmap r hr
      rw [mapOpt_length (fun row => npGet row (i : Int)) p r hpr, (hplanes p hp).1]

/-- Witness for get_slice_shape at a concrete 2x2x2 volume. -/
theorem get_slice_shape_witness :
    hasShape3 [[[1, 2], [3, 4]], [[5, 6], [7, 8]]] 2 2 2 ∧ 1 < 2 ∧
    (∃ s, get_slice [[[1, 2], [3, 4]], [[5, 6], [7, 8]]] "sagittal" ((1 : Nat) : Int) =
        Except.ok (s, "Antero-posterior", "Cranio-caudal") ∧ hasShape2 s 2 2) :=
  ⟨by decide, by decide,
   (get_slice_shape [[[1, 2], [3, 4]], [[5, 6], [7, 8]]] 2 2 2 (by decide)).1 1 (by decide)⟩

/-- C8: `_get_slice` performs no bounds validation: on a nonempty
rectangular volume, a slice index outside the numpy-valid range [-d, d)
of the orientation's fixed axis d makes the underlying array indexing
fail, and the extractor propagates that indexing fault (the numpy
IndexError, PyFault.indexError) - it raises no dedicated error and
returns no value. -/
theorem get_slice_out_of_range (v : Volume3) (d0 d1 d2 : Nat)
    (hs : hasShape3 v d0 d1 d2) (h0 : 0 < d0) (h1 : 0 < d1) (i : Int) :
    ((d0 : Int) ≤ i ∨ i < -(d0 : Int) →
        get_slice v "sagittal" i = Except.error PyFault.indexError) ∧
    ((d1 : Int) ≤ i ∨ i < -(d1 : Int) →
        get_slice v "frontal" i = Except.error PyFault.indexError) ∧
    ((d2 : Int) ≤ i ∨ i < -(d2 : Int) →
        get_slice v "axial" i = Except.error PyFault.indexError) := by
  obtain ⟨hlen, hplanes⟩ := hs
  refine ⟨?_, ?_, ?_⟩
  · intro hout
    have e : npGet v i = none :=
      npGet_none_of_out_of_range v i (by rw [hlen]; exact hout)
    unfold get_slice
    rw [if_pos rfl, e]
  · intro hout
    cases v with
    | nil =>
      exfalso
      simp at hlen
      omega
    | cons p ps =>
      have hp : p ∈ p :: ps := List.mem_cons_self p ps
      have e : npGet p i = none :=
        npGet_none_of_out_of_range p i (by rw [(hplanes p hp).1]; exact hout)
      have em : mapOpt (fun plane => npGet plane i) (p :: ps) = none :=
        mapOpt_none_of_mem (fun plane => npGet plane i) (p :: ps) p hp e
      unfold get_slice
      rw [if_neg (by decide), if_pos rfl, em]
  · intro hout
    cases v with
    | nil =>
      exfalso
      simp at hlen
      omega
    | cons p ps =>
      have hp : p ∈ p :: ps := List.mem_cons_self p ps
      cases p with
      | nil =>
        exfalso
        have hd1 := (hplanes [] hp).1
        simp at hd1
        omega
      | cons r rs =>
        have hr : r ∈ r :: rs := List.mem_cons_self r rs
        have e : npGet r i = none :=
          npGet_none_of_out_of_range r i
            (by rw [(hplanes (r :: rs) hp).2 r hr]; exact hout)
        have einner : mapOpt (fun row => npGet row i) (r :: rs) = none :=
          mapOpt_none_of_mem (fun row => npGet row i) (r :: rs) r hr e
        have eouter :
            mapOpt (fun plane => mapOpt (fun row => npGet row i) plane)
              ((r :: rs) :: ps) = none :=
          mapOpt_none_of_mem (fun plane => mapOpt (fun row => npGet row i) plane)
            ((r :: rs) :: ps) (r :: rs) hp einner
        unfold get_slice
        rw [if_neg (by decide), if_neg (by decide), if_pos rfl, eouter]

/-- Witness for get_slice_out_of_range: the spec's example index 15 on a
2x2x2 volume. -/
theorem get_slice_out_of_range_witness :
    hasShape3 [[[1, 2], [3, 4]], [[5, 6], [7, 8]]] 2 2 2 ∧ 0 < 2 ∧
    ((2 : Int) ≤ 15 ∨ (15 : Int) < -(2 : Int)) ∧
    get_slice [[[1, 2], [3, 4]], [[5, 6], [7, 8]]] "sagittal" 15 =
      Except.error PyFault.indexError :=
  ⟨by decide, by decide, Or.inl (by decide),
   (get_slice_out_of_range [[[1, 2], [3, 4]], [[5, 6], [7, 8]]] 2 2 2
      (by decide) (by decide) (by decide) 15).1 (Or.inl (by decide))⟩

/-- C2: For every rectangular 3D volume and valid slice index, each entry
of the extracted slice equals the corresponding entry of the volume with
the fixed axis set to the slice index: sagittal slice[a][c] = v[i][a][c],
frontal slice[m][c] = v[m][i][c], axial slice[m][a] = v[m][a][i]. -/
theorem get_slice_values (v : Volume3) (d0 d1 d2 : Nat) (hs : hasShape3 v d0 d1 d2) :
    (∀ i a c : Nat, i < d0 → ∀ s xl yl,
        get_slice v "sagittal" (i : Int) = Except.ok (s, xl, yl) →
        at2 s a c = at3 v i a c) ∧
    (∀ i m c : Nat, i < d1 → m < d0 → ∀ s xl yl,
        get_slice v "frontal" (i : Int) = Except.ok (s, xl, yl) →
        at2 s m c = at3 v m i c) ∧
    (∀ i m a : Nat, i < d2 → m < d0 → a < d1 → ∀ s xl yl,
        get_slice v "axial" (i : Int) = Except.ok (s, xl, yl) →
        at2 s m a = at3 v m a i) := by
  obtain ⟨hlen, hplanes⟩ := hs
  refine ⟨?_, ?_, ?_⟩
  · intro i a c hi s xl yl h
    unfold get_slice at h
    rw [if_pos rfl] at h
    cases hn : npGet v (i : Int) with
    | none => rw [hn] at h; cases h
    | some s0 =>
      rw [hn] at h
      simp only [Except.ok.injEq, Prod.mk.injEq] at h
      obtain ⟨h1, -⟩ := h
      subst h1
      have hv : v.get? i = some s0 := by
        rw [← npGet_coe_nat v i (by rw [hlen]; exact hi)]
        exact hn
      unfold at2 at3
      rw [getD_of_get?_some v i s0 [] hv]
  · intro i m c hi hm s xl yl h
    unfold get_slice at h
    rw [if_neg (by decide), if_pos rfl] at h
    cases hn : mapOpt (fun plane => npGet plane (i : Int)) v with
    | none => rw [hn] at h; cases h
    | some s0 =>
      rw [hn] at h
      simp only [Except.ok.injEq, Prod.mk.injEq] at h
      obtain ⟨h1, -⟩ := h
      subst h1
      obtain ⟨p, hp⟩ := get?_some_of_lt v m (by rw [hlen]; exact hm)
      have hpmem := mem_of_get?_some v m p hp
      obtain ⟨y, hy, hs0⟩ := mapOpt_get? (fun plane => npGet plane (i : Int)) v s0 hn m p hp
      have hpy : p.get? i = some y := by
        rw [← npGet_coe_nat p i (by rw [(hplanes p hpmem).1]; exact hi)]
        exact hy
      unfold at2 at3
      rw [getD_of_get?_some s0 m y [] hs0, getD_of_get?_some v m p [] hp,
          getD_of_get?_some p i y [] hpy]
  · intro i m a hi hm ha s xl yl h
    unfold get_slice at h
    rw [if_neg (by decide), if_neg (by decide), if_pos rfl] at h
    cases hn : mapOpt (fun plane => mapOpt (fun row => npGet row (i : Int)) plane) v with
    | none => rw [hn] at h; cases h
    | some s0 =>
      rw [hn] at h
      simp only [Except.ok.injEq, Prod.mk.injEq] at h
      obtain ⟨h1, -⟩ := h
      subst h1
      obtain ⟨p, hp⟩ := get?_some_of_lt v m (by rw [hlen]; exact hm)
      have hpmem := mem_of_get?_some v m p hp
      obtain ⟨row, hrowmap, hs0m⟩ := mapOpt_get?
        (fun plane => mapOpt (fun r => npGet r (i : Int)) plane) v s0 hn m p hp
      obtain ⟨r, hr⟩ := get?_some_of_lt p a (by rw [(hplanes p hpmem).1]; exact ha)
      have hrmem := mem_of_get?_some p a r hr
      obtain ⟨x, hx, hrowa⟩ := mapOpt_get? (fun r => npGet r (i : Int)) p row hrowmap a r hr
      have hrx : r.get? i = some x := by
        rw [← npGet_coe_nat r i (by rw [(hplanes p hpmem).2 r hrmem]; exact hi)]
        exact hx
      unfold at2 at3
      rw [getD_of_get?_some s0 m row [] hs0m, getD_of_get?_some row a x 0 hrowa,
          getD_of_get?_some v m p [] hp, getD_of_get?_some p a r [] hr,
          getD_of_get?_some r i x 0 hrx]

/-- Witness for get_slice_values: frontal extraction on a concrete 2x2x2
volume, checking entry (0, 1) of the slice against entry (0, 1, 1) of the
volume. -/
theorem get_slice_values_witness :
    hasShape3 [[[1, 2], [3, 4]], [[5, 6], [7, 8]]] 2 2 2 ∧ 1 < 2 ∧ 0 < 2 ∧
    get_slice [[[1, 2], [3, 4]], [[5, 6], [7, 8]]] "frontal" ((1 : Nat) : Int) =
      Except.ok ([[3, 4], [7, 8]], "Medio-lateral", "Cranio-caudal") ∧
    at2 [[3, 4], [7, 8]] 0 1 = at3 [[[1, 2], [3, 4]], [[5, 6], [7, 8]]] 0 1 1 :=
  ⟨by decide, by decide, by decide, by rfl,
   (get_slice_values [[[1, 2], [3, 4]], [[5, 6], [7, 8]]] 2 2 2 (by decide)).2.1
     1 0 1 (by decide) (by decide) [[3, 4], [7, 8]] "Medio-lateral" "Cranio-caudal" (by rfl)⟩

/-- On a rectangular 4D volume, selecting a valid timepoint always yields
a 3D sub-volume. -/
theorem fixTime_some (image : Volume4) (d0 d1 d2 T : Nat)
    (h : hasShape4 image d0 d1 d2 T) (t : Nat) (ht : t < T) :
    ∃ v3, fixTime image (t : Int) = some v3 := by
  unfold fixTime
  apply mapOpt_some_of_forall
  intro p hp
  apply mapOpt_some_of_forall
  intro r hr
  apply mapOpt_some_of_forall
  intro s hs
  exact npGet_some_of_lt s t (by rw [((h.2 p hp).2 r hr).2 s hs]; exact ht)

/-- C5: For every rectangular 4D volume, orientation, slice index and
valid timepoint, the slice (with its labels) rendered by
`show_functional_slice` equals the result of first fixing time to the
given timepoint and then applying the 3D Slice Extractor. -/
theorem show_functional_slice_factors (image : Volume4) (d0 d1 d2 T : Nat)
    (h : hasShape4 image d0 d1 d2 T) (orientation : String) (slice_nr : Int)
    (t : Nat) (ht : t < T) :
    ∃ v3, fixTime image (t : Int) = some v3 ∧
      show_functional_slice image orientation slice_nr (t : Int) =
        get_slice v3 orientation slice_nr := by
  obtain ⟨v3, hv3⟩ := fixTime_some image d0 d1 d2 T h t ht
  refine ⟨v3, hv3, ?_⟩
  unfold show_functional_slice
  rw [hv3]

/-- Witness for show_functional_slice_factors at a concrete 1x1x1x2
volume and timepoint 1. -/
theorem show_functional_slice_factors_witness :
    hasShape4 [[[[3, 4]]]] 1 1 1 2 ∧ 1 < 2 ∧
    ∃ v3, fixTime [[[[3, 4]]]] ((1 : Nat) : Int) = some v3 ∧
      show_functional_slice [[[[3, 4]]]] "axial" 0 ((1 : Nat) : Int) =
        get_slice v3 "axial" 0 :=
  ⟨by decide, by decide,
   show_functional_slice_factors [[[[3, 4]]]] 1 1 1 2 (by decide) "axial" 0 1 (by decide)⟩

/-- C6: For every rectangular 4D volume and in-bounds spatial position
(i, j, k), the time series extracted by `track_voxel` is the 1D array
whose n-th entry is the volume's value at (i, j, k, n), with length equal
to the time dimension. -/
theorem voxel_over_time_spec (image : Volume4) (d0 d1 d2 T : Nat)
    (h : hasShape4 image d0 d1 d2 T) (i j k : Nat)
    (hi : i < d0) (hj : j < d1) (hk : k < d2) :
    ∃ ts, voxel_over_time image (i : Int) (j : Int) (k : Int) = some ts ∧
      ts.length = T ∧ ∀ n : Nat, n < T → ts.getD n 0 = at4 image i j k n := by
  obtain ⟨hlen, hplanes⟩ := h
  obtain ⟨p, hp⟩ := get?_some_of_lt image i (by rw [hlen]; exact hi)
  have hpmem := mem_of_get?_some image i p hp
  obtain ⟨r, hr⟩ := get?_some_of_lt p j (by rw [(hplanes p hpmem).1]; exact hj)
  have hrmem := mem_of_get?_some p j r hr
  obtain ⟨s, hsg⟩ := get?_some_of_lt r k (by rw [((hplanes p hpmem).2 r hrmem).1]; exact hk)
  have hsmem := mem_of_get?_some r k s hsg
  have e1 : npGet image (i : Int) = some p := by
    rw [npGet_coe_nat image i (by rw [hlen]; exact hi)]
    exact hp
  have e2 : npGet p (j : Int) = some r := by
    rw [npGet_coe_nat p j (by rw [(hplanes p hpmem).1]; exact hj)]
    exact hr
  have e3 : npGet r (k : Int) = some s := by
    rw [npGet_coe_nat r k (by rw [((hplanes p hpmem).2 r hrmem).1]; exact hk)]
    exact hsg
  refine ⟨s, ?_, ?_, ?_⟩
  · simp [voxel_over_time, e1, e2, e3]
  · exact ((hplanes p hpmem).2 r hrmem).2 s hsmem
  · intro n hn
    unfold at4
    rw [getD_of_get?_some image i p [] hp, getD_of_get?_some p j r [] hr,
        getD_of_get?_some r k s [] hsg]

/-- Witness for voxel_over_time_spec at a concrete 1x1x1x2 volume. -/
theorem voxel_over_time_spec_witness :
    hasShape4 [[[[3, 4]]]] 1 1 1 2 ∧ 0 < 1 ∧
    ∃ ts, voxel_over_time [[[[3, 4]]]] ((0 : Nat) : Int) ((0 : Nat) : Int) ((0 : Nat) : Int) =
        some ts ∧ ts.length = 2 ∧ ∀ n : Nat, n < 2 → ts.getD n 0 = at4 [[[[3, 4]]]] 0 0 0 n :=
  ⟨by decide, by decide,
   voxel_over_time_spec [[[[3, 4]]]] 1 1 1 2 (by decide) 0 0 0
     (by decide) (by decide) (by decide)⟩
